import Mathlib

/-!
Verification development for the eagleliz catalog scanner core
(`src/eagleliz/core/reader.py` and `src/eagleliz/model/metadata.py`).

The Python code is shallowly embedded: the filesystem is an explicit data
structure (an images directory is a list of entries, an item folder a list of
files, a file a name plus its parsed-JSON content), pydantic parsing of
`metadata.json` is an explicit `Except`-valued parser, and the stateful
`EagleCoolReader` scan is a fold over the folder list threading the
result lists (`items`, `error_paths`, `items_skipped`) and the
`scanned_folders_count` counter.
-/

namespace Eagleliz

/-- JSON values as produced by `json.load`.  Numbers are embedded as integers:
no claim inspects numeric payloads arithmetically, only their presence and
kind. -/
inductive JsonValue where
  | null
  | bool (b : Bool)
  | num (n : Int)
  | str (s : String)
  | arr (xs : List JsonValue)
  | obj (fields : List (String × JsonValue))

/-- Lookup of a key in a JSON object (Python dict access: first binding wins;
a real `json.load` dict has distinct keys). -/
def jLookup (fields : List (String × JsonValue)) (k : String) : Option JsonValue :=
  match fields with
  | [] => none
  | (k', v) :: rest => if k' = k then some v else jLookup rest k

/-- Pydantic schema `Palette` from `model/metadata.py`: `color: List[int]`,
`ratio: float` (floats embedded as their numeric payload). -/
structure Palette where
  color : List Int
  ratio : Int
deriving DecidableEq, Repr

/-- Pydantic schema `Metadata` from `model/metadata.py`, with the declared
per-field defaults: every `Optional[...] = None` field is an `Option` that
defaults to `none`, `tags`/`folders`/`palettes` default to `[]`, `isDeleted`
to `false`, and `noThumbnail` (declared `Optional[bool] = False`) to
`some false`. -/
structure Metadata where
  id : Option String := none
  name : Option String := none
  size : Option Int := none
  btime : Option Int := none
  mtime : Option Int := none
  ext : Option String := none
  tags : List String := []
  folders : List String := []
  isDeleted : Bool := false
  url : Option String := none
  annotation : Option String := none
  modificationTime : Option Int := none
  height : Option Int := none
  width : Option Int := none
  noThumbnail : Option Bool := some false
  lastModified : Option Int := none
  palettes : List Palette := []
  deletedTime : Option Int := none
deriving DecidableEq, Repr

/-- Field parser for `Optional[str] = None`: absent or JSON null gives `none`,
a JSON string gives the string, any other shape is a validation error. -/
def pOptStr : Option JsonValue → Except String (Option String)
  | none => .ok none
  | some .null => .ok none
  | some (.str s) => .ok (some s)
  | some _ => .error "expected string"

/-- Field parser for `Optional[int] = None`. -/
def pOptInt : Option JsonValue → Except String (Option Int)
  | none => .ok none
  | some .null => .ok none
  | some (.num n) => .ok (some n)
  | some _ => .error "expected int"

/-- Field parser for `bool` with a declared default (used by `isDeleted`):
absent gives the default, JSON null is not allowed for a non-Optional bool. -/
def pBoolD (d : Bool) : Option JsonValue → Except String Bool
  | none => .ok d
  | some (.bool b) => .ok b
  | some _ => .error "expected bool"

/-- Field parser for `Optional[bool]` with a declared default (used by
`noThumbnail`, declared `Optional[bool] = False`). -/
def pOptBoolD (d : Option Bool) : Option JsonValue → Except String (Option Bool)
  | none => .ok d
  | some .null => .ok none
  | some (.bool b) => .ok (some b)
  | some _ => .error "expected bool"

/-- Element parser for a JSON string. -/
def pAsStr : JsonValue → Except String String
  | .str s => .ok s
  | _ => .error "expected string element"

/-- Element parser for a JSON integer. -/
def pAsInt : JsonValue → Except String Int
  | .num n => .ok n
  | _ => .error "expected int element"

/-- Field parser for `List[str] = []` (used by `tags` and `folders`). -/
def pStrList : Option JsonValue → Except String (List String)
  | none => .ok []
  | some (.arr xs) => xs.mapM pAsStr
  | some _ => .error "expected list of strings"

/-- Pydantic validation of one `Palette` entry: it must be an object carrying
a `color` list of ints and a numeric `ratio`; a missing field is a validation
error (the `Palette` model declares no defaults). -/
def paletteFromJson : JsonValue → Except String Palette
  | .obj fs =>
    match jLookup fs "color", jLookup fs "ratio" with
    | some c, some r => do
      let color ← match c with
        | .arr xs => xs.mapM pAsInt
        | _ => .error "palette color not a list"
      let ratio ← pAsInt r
      .ok { color, ratio }
    | none, _ => .error "palette entry missing color"
    | some _, none => .error "palette entry missing ratio"
  | _ => .error "palette entry not an object"

/-- Field parser for `List[Palette] = []`. -/
def pPalettes : Option JsonValue → Except String (List Palette)
  | none => .ok []
  | some (.arr xs) => xs.mapM paletteFromJson
  | some _ => .error "expected list of palettes"

/-- Embedding of `Metadata.from_json` / the pydantic `Metadata(**dict)`
constructor: each declared field is looked up by name and validated, absent
fields take the declared defaults, and keys that are not declared fields are
ignored (pydantic default `extra` behavior drops them silently).  A
non-mapping input corresponds to `cls(**data)` raising. -/
def metadataFromJson : JsonValue → Except String Metadata
  | .obj fs => do
    let id ← pOptStr (jLookup fs "id")
    let name ← pOptStr (jLookup fs "name")
    let size ← pOptInt (jLookup fs "size")
    let btime ← pOptInt (jLookup fs "btime")
    let mtime ← pOptInt (jLookup fs "mtime")
    let ext ← pOptStr (jLookup fs "ext")
    let tags ← pStrList (jLookup fs "tags")
    let folders ← pStrList (jLookup fs "folders")
    let isDeleted ← pBoolD false (jLookup fs "isDeleted")
    let url ← pOptStr (jLookup fs "url")
    let annotation ← pOptStr (jLookup fs "annotation")
    let modificationTime ← pOptInt (jLookup fs "modificationTime")
    let height ← pOptInt (jLookup fs "height")
    let width ← pOptInt (jLookup fs "width")
    let noThumbnail ← pOptBoolD (some false) (jLookup fs "noThumbnail")
    let lastModified ← pOptInt (jLookup fs "lastModified")
    let palettes ← pPalettes (jLookup fs "palettes")
    let deletedTime ← pOptInt (jLookup fs "deletedTime")
    .ok { id, name, size, btime, mtime, ext, tags, folders, isDeleted, url,
          annotation, modificationTime, height, width, noThumbnail,
          lastModified, palettes, deletedTime }
  | _ => .error "metadata is not a mapping"

/-- The record produced by parsing an empty mapping: every field takes the
declared default of the model. -/
def emptyMetadata : Metadata := {}

/-- The declared field names of the `Metadata` pydantic model. -/
def knownKeys : List String :=
  ["id", "name", "size", "btime", "mtime", "ext", "tags", "folders",
   "isDeleted", "url", "annotation", "modificationTime", "height", "width",
   "noThumbnail", "lastModified", "palettes", "deletedTime"]

/-- Path of a file inside one item folder, mirroring `pathlib`: the parent
directory string and the final component.  Two paths are equal exactly when
both parts are (all candidates of one folder share the parent, so this is
`pathlib` equality restricted to the uses in the scanner). -/
structure MPath where
  parent : String
  name : String
deriving DecidableEq, Repr

/-- Rendering of a path as handed to `get_file_type(str(media_file))`. -/
def mpathStr (p : MPath) : String := p.parent ++ "/" ++ p.name

/-- Index of the last occurrence of a character in a list, as in
`str.rfind`. -/
def lastIdxOf (c : Char) : List Char → Option Nat
  | [] => none
  | x :: xs =>
    match lastIdxOf c xs with
    | some i => some (i + 1)
    | none => if x = c then some 0 else none

/-- Embedding of `pathlib.PurePath.suffix`: the substring from the last dot
of the final component, empty when the name has no dot, starts with its only
dot, or ends with the dot. -/
def pySuffix (s : String) : String :=
  match lastIdxOf '.' s.data with
  | none => ""
  | some i => if 0 < i ∧ i + 1 < s.data.length then String.mk (s.data.drop i) else ""

/-- Lowercasing as in `str.lower` (the scanner only lowers ASCII suffixes). -/
def strLower (s : String) : String := String.mk (s.data.map Char.toLower)

/-- Substring test on character lists, for the Python test `needle in haystack`. -/
def charsContain (hay needle : List Char) : Bool :=
  needle.isPrefixOf hay ||
    match hay with
    | [] => false
    | _ :: t => charsContain t needle

/-- Python substring containment `needle in hay` on strings. -/
def strContains (hay needle : String) : Bool := charsContain hay.data needle.data

/-- File types of the external `pylizlib` `FileType` enum, modeled
abstractly; only identity and the enum member name matter to the scanner. -/
inductive FileType where
  | image
  | video
  | audio
  | document
  | other
deriving DecidableEq, Repr

/-- Enum member name, as the Python expression `detected_type.name`. -/
def FileType.nameStr : FileType → String
  | .image => "IMAGE"
  | .video => "VIDEO"
  | .audio => "AUDIO"
  | .document => "DOCUMENT"
  | .other => "OTHER"

/-- A file inside an item folder: its name and, when it is read as JSON, its
parsed content (`none` models bytes that `json.load` rejects).  Entries of
the folder that are not regular files are skipped by the `is_file()` guard
without any effect, so they are not represented. -/
structure FsFile where
  name : String
  content : Option JsonValue

/-- One `<catalogue>/images/<uuid>` item folder: its path (folder identity)
and its files. -/
structure ItemFolder where
  path : String
  files : List FsFile

/-- One directory entry of the `images` directory: an item folder, or an
entry that fails `is_dir()` and is not visited. -/
inductive ImagesEntry where
  | dir (folder : ItemFolder)
  | nonDir (name : String)

/-- The catalogue: `none` models a `.library` bundle whose `images`
directory does not exist. -/
structure Catalogue where
  images : Option (List ImagesEntry)

/-- Paths of the entries of the images directory that `is_dir()` accepts, in
iteration order. -/
def dirPaths (entries : List ImagesEntry) : List String :=
  entries.filterMap fun e =>
    match e with
    | .dir folder => some folder.path
    | .nonDir _ => none

/-- Embedding of the `EagleItem` class: the resolved main media file and the
parsed metadata.  The optional base64 payload is omitted: the
base64 step only caches file bytes, catches its own exceptions and never
changes any result list. -/
structure EagleItem where
  file_path : MPath
  metadata : Metadata
deriving DecidableEq, Repr

/-- Constructor arguments of `EagleCoolReader.__init__` that steer the scan
(`include_base64` is omitted, see `EagleItem`). -/
structure ReaderConfig where
  include_deleted : Bool
  file_types : List FileType
  filter_tags : Option (List String)
deriving DecidableEq, Repr

/-- Default `file_types` of `EagleCoolReader.__init__`. -/
def defaultFileTypes : List FileType := [.image, .video, .audio]

/-- Embedding of the handling in `EagleCoolReader.__init__` of the `file_types`
argument: `file_types if file_types else [IMAGE, VIDEO, AUDIO]` is Python
truthiness, so `None` and the empty list both fall back to the default. -/
def mkReaderConfig (include_deleted : Bool) (file_types : Option (List FileType))
    (filter_tags : Option (List String)) : ReaderConfig :=
  { include_deleted,
    file_types :=
      match file_types with
      | some l => if l.isEmpty then defaultFileTypes else l
      | none => defaultFileTypes,
    filter_tags }

/-- Mutable result attributes of `EagleCoolReader`, initialized empty by
`__init__` and populated by `run`. -/
structure ScanState where
  items : List EagleItem
  error_paths : List (String × String)
  items_skipped : List (EagleItem × String)
  scanned_folders_count : Nat
deriving DecidableEq, Repr

/-- Reader state right after `__init__`. -/
def initState : ScanState :=
  { items := [], error_paths := [], items_skipped := [], scanned_folders_count := 0 }

/-- Result of `__scan_folder_contents`: the parsed metadata if a
`metadata.json` was found and parsed, the resolved main media file, and the
error message when `__load_metadata` failed (the boolean
`error_occurred` flag together with the exception text it logs). -/
structure FolderScan where
  metadata_obj : Option Metadata
  media_file : Option MPath
  parse_error : Option String
deriving DecidableEq, Repr

/-- Inner loop of `_determine_main_file` over the candidates carrying one
priority suffix: return the first whose sibling named by literally appending
`.png` is among the candidates (`pathlib` `with_name` keeps the parent). -/
def findPair (cands : List MPath) : List MPath → Option MPath
  | [] => none
  | t :: ts =>
    if (⟨t.parent, t.name ++ ".png"⟩ : MPath) ∈ cands then some t
    else findPair cands ts

/-- Outer loop of `_determine_main_file` over the priority extensions. -/
def priorityLoop (cands : List MPath) : List String → Option MPath
  | [] => none
  | ext :: rest =>
    match findPair cands (cands.filter fun f => strLower (pySuffix f.name) = ext) with
    | some t => some t
    | none => priorityLoop cands rest

/-- Embedding of `EagleCoolReader._determine_main_file`. -/
def determine_main_file (cands : List MPath) : Option MPath :=
  if cands.isEmpty then none
  else
    match priorityLoop cands [".heic", ".dng"] with
    | some t => some t
    | none => cands.head?

/-- Embedding of the parsing in `__load_metadata`: `json.load` of unreadable
bytes raises (content `none`), otherwise `Metadata.from_json` validates the
parsed value.  The caller appends the folder to `error_paths` with the
exception text. -/
def load_metadata : Option JsonValue → Except String Metadata
  | none => .error "invalid JSON"
  | some v => metadataFromJson v

/-- Loop of `__scan_folder_contents` over the files of the folder: thumbnails
(names containing `_thumbnail`, case-sensitively as in the source) are
skipped, `metadata.json` is parsed — a parse failure returns
`(None, None, True)` at once — and every other file becomes a media
candidate. -/
def scanLoop (fpath : String) (metadata_obj : Option Metadata) (cands : List MPath) :
    List FsFile → FolderScan
  | [] =>
    { metadata_obj, media_file := determine_main_file cands, parse_error := none }
  | f :: rest =>
    if strContains f.name "_thumbnail" then
      scanLoop fpath metadata_obj cands rest
    else if f.name = "metadata.json" then
      match load_metadata f.content with
      | .error e => { metadata_obj := none, media_file := none, parse_error := some e }
      | .ok m => scanLoop fpath (some m) cands rest
    else
      scanLoop fpath metadata_obj (cands ++ [⟨fpath, f.name⟩]) rest

/-- Embedding of `EagleCoolReader.__scan_folder_contents`. -/
def scan_folder_contents (folder : ItemFolder) : FolderScan :=
  scanLoop folder.path none [] folder.files

/-- Tag filter test of `__handle_eagle_folder`: `if self.filter_tags:` is
Python truthiness (a present but empty filter is inactive), and the filter
skips the item when no filter tag occurs among the tags of the item. -/
def tagMismatch (filter_tags : Option (List String)) (m : Metadata) : Bool :=
  match filter_tags with
  | some ts => !ts.isEmpty && !(ts.any fun tag => decide (tag ∈ m.tags))
  | none => false

/-- Embedding of `EagleCoolReader.__handle_eagle_folder`, parameterized by
the external `pylizlib.get_file_type` (its `ValueError` modeled as `none`).
The returned state carries the appends to `error_paths` / `items_skipped`
(including the one `__load_metadata` performs on a parse failure); the
optional item is the accepted result appended to `items` by `run`. -/
def handle_eagle_folder (cfg : ReaderConfig) (gft : String → Option FileType)
    (folder : ItemFolder) (st : ScanState) : ScanState × Option EagleItem :=
  let fs := scan_folder_contents folder
  match fs.parse_error with
  | some e =>
    ({ st with error_paths := st.error_paths ++ [(folder.path, "Error reading metadata: " ++ e)] },
     none)
  | none =>
    match fs.metadata_obj, fs.media_file with
    | none, none =>
      ({ st with error_paths := st.error_paths ++
          [(folder.path, String.intercalate ", " ["Missing metadata.json", "Missing media file"])] },
       none)
    | none, some _ =>
      ({ st with error_paths := st.error_paths ++
          [(folder.path, String.intercalate ", " ["Missing metadata.json"])] },
       none)
    | some _, none =>
      ({ st with error_paths := st.error_paths ++
          [(folder.path, String.intercalate ", " ["Missing media file"])] },
       none)
    | some m, some mf =>
      let item : EagleItem := ⟨mf, m⟩
      if m.isDeleted && !cfg.include_deleted then
        ({ st with items_skipped := st.items_skipped ++ [(item, "Item is deleted")] }, none)
      else
        match gft (mpathStr mf) with
        | none =>
          ({ st with items_skipped := st.items_skipped ++
              [(item, "Unsupported file type: " ++ pySuffix mf.name)] }, none)
        | some detected =>
          if detected ∉ cfg.file_types then
            ({ st with items_skipped := st.items_skipped ++
                [(item, "File type not requested: " ++ FileType.nameStr detected)] }, none)
          else if tagMismatch cfg.filter_tags m then
            ({ st with items_skipped := st.items_skipped ++ [(item, "Tag mismatch")] }, none)
          else
            (st, some item)

/-- Body of the loop of `run` for one `is_dir()` entry: bump the counter, handle
the folder, and append the accepted item to `items` when one is returned. -/
def scan_step (cfg : ReaderConfig) (gft : String → Option FileType)
    (folder : ItemFolder) (st : ScanState) : ScanState :=
  let st1 := { st with scanned_folders_count := st.scanned_folders_count + 1 }
  match handle_eagle_folder cfg gft folder st1 with
  | (st2, some item) => { st2 with items := st2.items ++ [item] }
  | (st2, none) => st2

/-- Loop of `run` over the entries of the `images` directory; entries that
fail `is_dir()` are not visited. -/
def scan_folders (cfg : ReaderConfig) (gft : String → Option FileType) :
    List ImagesEntry → ScanState → ScanState
  | [], st => st
  | .dir folder :: rest, st => scan_folders cfg gft rest (scan_step cfg gft folder st)
  | .nonDir _ :: rest, st => scan_folders cfg gft rest st

/-- Message of the `ValueError` raised by `run` when the `images` directory
is missing. -/
def imagesNotFoundMsg : String := "Eagle catalogue images directory not found"

/-- Embedding of `EagleCoolReader.run`: the final reader state paired with
the raised error, `some` exactly when the precondition check fails, in which
case the state is returned untouched (the raise happens before the loop). -/
def run (cfg : ReaderConfig) (gft : String → Option FileType) (st : ScanState)
    (cat : Catalogue) : ScanState × Option String :=
  match cat.images with
  | none => (st, some imagesNotFoundMsg)
  | some entries => (scan_folders cfg gft entries st, none)

/-- Resolver written from the words of the specification (4.2 MainAssetResolver),
for refinement comparison with `determine_main_file`: absent on an empty
candidate list; otherwise for `.heic` then `.dng` return the first candidate
carrying that suffix case-insensitively whose sibling named by literally
appending `.png` is among the candidates; otherwise the first candidate in
iteration order. -/
def specMainAssetResolver (cands : List MPath) : Option MPath :=
  match cands.find? fun f =>
      decide (strLower (pySuffix f.name) = ".heic")
        && decide ((⟨f.parent, f.name ++ ".png"⟩ : MPath) ∈ cands) with
  | some t => some t
  | none =>
    match cands.find? fun f =>
        decide (strLower (pySuffix f.name) = ".dng")
          && decide ((⟨f.parent, f.name ++ ".png"⟩ : MPath) ∈ cands) with
    | some t => some t
    | none => cands.head?

/-- Folder identities contributed to the three result lists: an accepted or
skipped item is identified by the parent folder of its media file, an errored
entry by its recorded folder path. -/
def stateKeysList (st : ScanState) : List String :=
  st.items.map (fun it => it.file_path.parent)
    ++ st.items_skipped.map (fun pr => pr.1.file_path.parent)
    ++ st.error_paths.map Prod.fst

/-- Concrete scan configuration used by witnesses: defaults of
`EagleCoolReader.__init__`. -/
def cfgW : ReaderConfig := ⟨false, defaultFileTypes, none⟩

/-- Concrete external type detector used by witnesses: every file detected
as an image. -/
def gftW : String → Option FileType := fun _ => some .image

/-- Concrete folder holding a thumbnail-like name in the wrong casing. -/
def folderThumbW : ItemFolder :=
  ⟨"f-thumb", [⟨"metadata.json", some (.obj [])⟩, ⟨"B_THUMBNAIL.png", none⟩]⟩

/-- Concrete folder whose `metadata.json` carries a palette entry with a
color but no ratio. -/
def folderPalW : ItemFolder :=
  ⟨"pal-folder",
   [⟨"metadata.json",
     some (.obj [("palettes", .arr [.obj [("color", .arr [.num 1, .num 2, .num 3])]])])⟩]⟩

/-- Concrete folder with no files at all. -/
def folderEmptyW : ItemFolder := ⟨"empty-folder", []⟩

/-- Concrete well-formed folder accepted under the default configuration. -/
def folderOkW : ItemFolder :=
  ⟨"ok-folder", [⟨"metadata.json", some (.obj [])⟩, ⟨"a.jpg", none⟩]⟩

/-- Metadata record with only `tags` set, as parsed for the forward
compatibility example. -/
def taggedMeta : Metadata := { tags := ["x", "y"] }

/-- Metadata record of a deleted item. -/
def mDelW : Metadata := { isDeleted := true }

/-- Concrete folder holding a deleted item. -/
def folderDelW : ItemFolder :=
  ⟨"del-folder", [⟨"metadata.json", some (.obj [("isDeleted", .bool true)])⟩, ⟨"a.jpg", none⟩]⟩

/-- Metadata record tagged `["b", "z"]`. -/
def mTagBzW : Metadata := { tags := ["b", "z"] }

/-- Concrete folder whose item is tagged `["b", "z"]`. -/
def folderTagBzW : ItemFolder :=
  ⟨"tag-folder", [⟨"metadata.json", some (.obj [("tags", .arr [.str "b", .str "z"])])⟩, ⟨"a.jpg", none⟩]⟩

/-- Metadata record tagged `["c"]`. -/
def mTagCW : Metadata := { tags := ["c"] }

/-- Concrete folder whose item is tagged `["c"]`. -/
def folderTagCW : ItemFolder :=
  ⟨"tagc-folder", [⟨"metadata.json", some (.obj [("tags", .arr [.str "c"])])⟩, ⟨"a.jpg", none⟩]⟩

/-- Configuration with the tag filter `["a", "b"]`. -/
def cfgTagW : ReaderConfig := ⟨false, defaultFileTypes, some ["a", "b"]⟩

/-- Concrete images directory: one accepted folder, one non-directory entry,
one folder missing everything. -/
def entriesW : List ImagesEntry := [.dir folderOkW, .nonDir "junk", .dir folderEmptyW]

/-- Iterating `findPair` over the filtered candidates is the first candidate
in list order satisfying both the filter and the sibling test. -/
lemma findPair_filter (cands : List MPath) (p : MPath → Bool) (l : List MPath) :
    findPair cands (l.filter p) =
      l.find? fun f => p f && decide ((⟨f.parent, f.name ++ ".png"⟩ : MPath) ∈ cands) := by
  induction l with
  | nil => rfl
  | cons a l ih =>
    by_cases hp : p a
    · by_cases hm : (⟨a.parent, a.name ++ ".png"⟩ : MPath) ∈ cands
      · simp [List.filter_cons, hp, findPair, List.find?, hm]
      · simp [List.filter_cons, hp, findPair, List.find?, hm, ih]
    · simp [List.filter_cons, hp, List.find?, ih]

/-- C2: the main-asset resolver refines the specified algorithm — absent on
an empty candidate list, otherwise the first `.heic` (then `.dng`) candidate
matched case-insensitively whose literal `.png` sibling is among the
candidates, otherwise the first candidate; in particular on
`{photo.heic, photo.heic.png}` it returns `photo.heic`. -/
theorem c2_main_asset_resolver :
    (∀ cands, determine_main_file cands = specMainAssetResolver cands)
    ∧ determine_main_file [] = none
    ∧ determine_main_file [⟨"fld", "photo.heic"⟩, ⟨"fld", "photo.heic.png"⟩] =
        some ⟨"fld", "photo.heic"⟩ := by
  refine ⟨?_, rfl, by decide⟩
  intro cands
  by_cases h : cands.isEmpty
  · have hnil : cands = [] := by simpa using h
    subst hnil
    rfl
  · unfold determine_main_file specMainAssetResolver
    simp only [priorityLoop, if_neg h]
    rw [findPair_filter, findPair_filter]
    cases cands.find? fun f =>
        decide (strLower (pySuffix f.name) = ".heic")
          && decide ((⟨f.parent, f.name ++ ".png"⟩ : MPath) ∈ cands) with
    | some t => rfl
    | none =>
      cases cands.find? fun f =>
          decide (strLower (pySuffix f.name) = ".dng")
            && decide ((⟨f.parent, f.name ++ ".png"⟩ : MPath) ∈ cands) with
      | some t => rfl
      | none => rfl

/-- Removing the files whose name contains `_thumbnail` (exact casing) from
a folder does not change the scan of its contents: such files are fully
ignored by `__scan_folder_contents`. -/
lemma scanLoop_filter_thumbs (fpath : String) :
    ∀ (files : List FsFile) (mo : Option Metadata) (cands : List MPath),
      scanLoop fpath mo cands (files.filter fun f => !(strContains f.name "_thumbnail"))
        = scanLoop fpath mo cands files := by
  intro files
  induction files with
  | nil => intro mo cands; rfl
  | cons f rest ih =>
    intro mo cands
    by_cases h : strContains f.name "_thumbnail"
    · simp [List.filter_cons, h, scanLoop, ih]
    · have hmj : strContains "metadata.json" "_thumbnail" = false := by decide
      by_cases h2 : f.name = "metadata.json"
      · cases hl : load_metadata f.content with
        | error e => simp [List.filter_cons, h, scanLoop, h2, hl, hmj]
        | ok m => simp [List.filter_cons, h, scanLoop, h2, hl, ih, hmj]
      · simp [List.filter_cons, h, scanLoop, h2, ih]

/-- C3 (amended): the thumbnail exclusion is by exact, case-sensitive
substring — every file whose name contains `_thumbnail` in this exact casing
is excluded from all further consideration, in the sense that deleting all
such files from the folder leaves the scan of the folder unchanged. -/
theorem c3_thumbnail_case_sensitive (folder : ItemFolder) :
    scan_folder_contents
        ⟨folder.path, folder.files.filter fun f => !(strContains f.name "_thumbnail")⟩
      = scan_folder_contents folder := by
  unfold scan_folder_contents
  exact scanLoop_filter_thumbs folder.path folder.files none []

/-- C3 (counterexample): a file named `B_THUMBNAIL.png` contains
`_thumbnail` case-insensitively, yet the scan does not exclude it — it is
admitted as a media candidate and even resolved as the main file of the folder,
contradicting the claimed any-casing exclusion. -/
theorem c3_counterexample :
    strContains (strLower "B_THUMBNAIL.png") "_thumbnail" = true
    ∧ strContains "B_THUMBNAIL.png" "_thumbnail" = false
    ∧ (scan_folder_contents folderThumbW).media_file
        = some ⟨"f-thumb", "B_THUMBNAIL.png"⟩ := by
  refine ⟨by decide, by decide, by decide⟩

/-- C9: the scan raises exactly when the `images` directory of the catalogue does
not exist, and it raises before any folder is visited — the reader state at
the raise is still the `__init__` state: empty lists, counter zero. -/
theorem c9_fatal_precondition (cfg : ReaderConfig) (gft : String → Option FileType)
    (cat : Catalogue) :
    ((run cfg gft initState cat).2.isSome ↔ cat.images = none)
    ∧ (cat.images = none →
        run cfg gft initState cat =
          ({ items := [], error_paths := [], items_skipped := [],
             scanned_folders_count := 0 }, some imagesNotFoundMsg)) := by
  cases h : cat.images with
  | none => exact ⟨by simp [run, h], fun _ => by simp [run, h]; rfl⟩
  | some entries => exact ⟨by simp [run, h], fun hc => by simp [h] at hc⟩

/-- Witness for C9 at a catalogue with no `images` directory. -/
theorem c9_fatal_precondition_witness :
    Catalogue.images ⟨none⟩ = none
    ∧ run cfgW gftW initState ⟨none⟩ =
        ({ items := [], error_paths := [], items_skipped := [],
           scanned_folders_count := 0 }, some imagesNotFoundMsg) :=
  ⟨rfl, (c9_fatal_precondition cfgW gftW ⟨none⟩).2 rfl⟩

/-- Dissection of a successful `Except` bind. -/
lemma bind_eq_ok {α β : Type} {x : Except String α} {f : α → Except String β} {b : β}
    (h : x >>= f = .ok b) : ∃ a, x = .ok a ∧ f a = .ok b := by
  cases x with
  | error e => simp [Bind.bind, Except.bind] at h
  | ok a => exact ⟨a, rfl, by simpa [Bind.bind, Except.bind] using h⟩

/-- Appending a binding for a fresh key does not change lookups of other
keys. -/
lemma jLookup_append_ne (fields : List (String × JsonValue)) (k : String) (v : JsonValue)
    (key : String) (hne : key ≠ k) :
    jLookup (fields ++ [(k, v)]) key = jLookup fields key := by
  induction fields with
  | nil =>
    simp only [List.nil_append, jLookup]
    rw [if_neg (fun h => hne h.symm)]
  | cons kv rest ih =>
    obtain ⟨k', v'⟩ := kv
    by_cases hk : k' = key
    · simp [jLookup, hk]
    · simp [jLookup, hk, ih]

/-- C4 (amended): adding a key that is not a declared field of the metadata
schema never causes failure and never changes the parse result — every known
field is extracted exactly as without it, and the unknown key is silently
dropped (the pydantic model keeps no extra-fields bag). -/
theorem c4_unknown_keys_ignored (fields : List (String × JsonValue)) (k : String)
    (v : JsonValue) (hk : k ∉ knownKeys) :
    metadataFromJson (.obj (fields ++ [(k, v)])) = metadataFromJson (.obj fields) := by
  have h : ∀ key, key ∈ knownKeys →
      jLookup (fields ++ [(k, v)]) key = jLookup fields key := fun key hkey =>
    jLookup_append_ne fields k v key (fun heq => hk (heq ▸ hkey))
  have h1 := h "id" (by decide)
  have h2 := h "name" (by decide)
  have h3 := h "size" (by decide)
  have h4 := h "btime" (by decide)
  have h5 := h "mtime" (by decide)
  have h6 := h "ext" (by decide)
  have h7 := h "tags" (by decide)
  have h8 := h "folders" (by decide)
  have h9 := h "isDeleted" (by decide)
  have h10 := h "url" (by decide)
  have h11 := h "annotation" (by decide)
  have h12 := h "modificationTime" (by decide)
  have h13 := h "height" (by decide)
  have h14 := h "width" (by decide)
  have h15 := h "noThumbnail" (by decide)
  have h16 := h "lastModified" (by decide)
  have h17 := h "palettes" (by decide)
  have h18 := h "deletedTime" (by decide)
  simp only [metadataFromJson, h1, h2, h3, h4, h5, h6, h7, h8, h9, h10, h11,
    h12, h13, h14, h15, h16, h17, h18]

/-- Witness for C4 on the example mapping from the specification itself. -/
theorem c4_unknown_keys_ignored_witness :
    "unknownField" ∉ knownKeys
    ∧ metadataFromJson
        (.obj [("tags", .arr [.str "x", .str "y"]), ("unknownField", .num 42)])
      = metadataFromJson (.obj [("tags", .arr [.str "x", .str "y"])]) :=
  ⟨by decide,
   c4_unknown_keys_ignored [("tags", .arr [.str "x", .str "y"])] "unknownField"
     (.num 42) (by decide)⟩

/-- C4 (counterexample): on the example mapping from the specification the parse
succeeds and extracts `tags = ["x", "y"]`, but the result is the very same
record as when `unknownField` is absent — the value at the unknown key is dropped,
not preserved in any extra-fields bag (the parsed record has none). -/
theorem c4_counterexample :
    metadataFromJson
        (.obj [("tags", .arr [.str "x", .str "y"]), ("unknownField", .num 42)])
      = .ok taggedMeta
    ∧ metadataFromJson (.obj [("tags", .arr [.str "x", .str "y"])]) = .ok taggedMeta
    ∧ taggedMeta.tags = ["x", "y"] := by
  exact ⟨rfl, rfl, rfl⟩

/-- C5 (amended): every known field absent from the input mapping takes the
declared default of the model — `tags` the empty list, `isDeleted` false, and
every `Optional`-typed numeric or string field `None` (absent), not `0` or
the empty string. -/
theorem c5_absent_field_defaults (fields : List (String × JsonValue)) (m : Metadata)
    (hok : metadataFromJson (.obj fields) = .ok m) :
    (jLookup fields "tags" = none → m.tags = [])
    ∧ (jLookup fields "isDeleted" = none → m.isDeleted = false)
    ∧ (jLookup fields "size" = none → m.size = none)
    ∧ (jLookup fields "id" = none → m.id = none)
    ∧ (jLookup fields "name" = none → m.name = none)
    ∧ (jLookup fields "ext" = none → m.ext = none)
    ∧ (jLookup fields "url" = none → m.url = none)
    ∧ (jLookup fields "annotation" = none → Metadata.annotation m = none)
    ∧ (jLookup fields "btime" = none → m.btime = none)
    ∧ (jLookup fields "mtime" = none → m.mtime = none)
    ∧ (jLookup fields "modificationTime" = none → m.modificationTime = none)
    ∧ (jLookup fields "height" = none → m.height = none)
    ∧ (jLookup fields "width" = none → m.width = none)
    ∧ (jLookup fields "lastModified" = none → m.lastModified = none)
    ∧ (jLookup fields "deletedTime" = none → m.deletedTime = none) := by
  simp only [metadataFromJson] at hok
  obtain ⟨a1, h1, hok⟩ := bind_eq_ok hok
  obtain ⟨a2, h2, hok⟩ := bind_eq_ok hok
  obtain ⟨a3, h3, hok⟩ := bind_eq_ok hok
  obtain ⟨a4, h4, hok⟩ := bind_eq_ok hok
  obtain ⟨a5, h5, hok⟩ := bind_eq_ok hok
  obtain ⟨a6, h6, hok⟩ := bind_eq_ok hok
  obtain ⟨a7, h7, hok⟩ := bind_eq_ok hok
  obtain ⟨a8, h8, hok⟩ := bind_eq_ok hok
  obtain ⟨a9, h9, hok⟩ := bind_eq_ok hok
  obtain ⟨a10, h10, hok⟩ := bind_eq_ok hok
  obtain ⟨a11, h11, hok⟩ := bind_eq_ok hok
  obtain ⟨a12, h12, hok⟩ := bind_eq_ok hok
  obtain ⟨a13, h13, hok⟩ := bind_eq_ok hok
  obtain ⟨a14, h14, hok⟩ := bind_eq_ok hok
  obtain ⟨a15, h15, hok⟩ := bind_eq_ok hok
  obtain ⟨a16, h16, hok⟩ := bind_eq_ok hok
  obtain ⟨a17, h17, hok⟩ := bind_eq_ok hok
  obtain ⟨a18, h18, hok⟩ := bind_eq_ok hok
  injection hok with hm
  subst hm
  refine ⟨?_, ?_, ?_, ?_, ?_, ?_, ?_, ?_, ?_, ?_, ?_, ?_, ?_, ?_, ?_⟩
  · intro habs; rw [habs] at h7
    simp only [pStrList, Except.ok.injEq] at h7; subst h7; rfl
  · intro habs; rw [habs] at h9
    simp only [pBoolD, Except.ok.injEq] at h9; subst h9; rfl
  · intro habs; rw [habs] at h3
    simp only [pOptInt, Except.ok.injEq] at h3; subst h3; rfl
  · intro habs; rw [habs] at h1
    simp only [pOptStr, Except.ok.injEq] at h1; subst h1; rfl
  · intro habs; rw [habs] at h2
    simp only [pOptStr, Except.ok.injEq] at h2; subst h2; rfl
  · intro habs; rw [habs] at h6
    simp only [pOptStr, Except.ok.injEq] at h6; subst h6; rfl
  · intro habs; rw [habs] at h10
    simp only [pOptStr, Except.ok.injEq] at h10; subst h10; rfl
  · intro habs; rw [habs] at h11
    simp only [pOptStr, Except.ok.injEq] at h11; subst h11; rfl
  · intro habs; rw [habs] at h4
    simp only [pOptInt, Except.ok.injEq] at h4; subst h4; rfl
  · intro habs; rw [habs] at h5
    simp only [pOptInt, Except.ok.injEq] at h5; subst h5; rfl
  · intro habs; rw [habs] at h12
    simp only [pOptInt, Except.ok.injEq] at h12; subst h12; rfl
  · intro habs; rw [habs] at h13
    simp only [pOptInt, Except.ok.injEq] at h13; subst h13; rfl
  · intro habs; rw [habs] at h14
    simp only [pOptInt, Except.ok.injEq] at h14; subst h14; rfl
  · intro habs; rw [habs] at h16
    simp only [pOptInt, Except.ok.injEq] at h16; subst h16; rfl
  · intro habs; rw [habs] at h18
    simp only [pOptInt, Except.ok.injEq] at h18; subst h18; rfl

/-- Witness for C5 at the empty mapping, which parses to the all-defaults
record. -/
theorem c5_absent_field_defaults_witness :
    metadataFromJson (.obj []) = .ok emptyMetadata
    ∧ emptyMetadata.tags = []
    ∧ emptyMetadata.isDeleted = false
    ∧ emptyMetadata.size = none
    ∧ emptyMetadata.id = none := by
  have h := c5_absent_field_defaults [] emptyMetadata rfl
  exact ⟨rfl, h.1 rfl, h.2.1 rfl, h.2.2.1 rfl, h.2.2.2.1 rfl⟩

/-- C5 (counterexample): parsing a mapping without `size` or `id` yields a
record with those fields absent (`None`), not the claimed `0` or empty
string. -/
theorem c5_counterexample :
    metadataFromJson (.obj []) = .ok emptyMetadata
    ∧ emptyMetadata.size ≠ some 0
    ∧ emptyMetadata.id ≠ some "" := by
  exact ⟨rfl, by decide, by decide⟩

/-- C6 (amended): when loading the `metadata.json` of the folder fails — which
includes a well-formed mapping whose palette entry lacks a color or a
numeric ratio — the folder goes to the errored list with the reason
`Error reading metadata: <exception>`, it touches neither the accepted nor
the skipped list, and the scan continues with the next folder. -/
theorem c6_parse_failure_errored (cfg : ReaderConfig) (gft : String → Option FileType)
    (folder : ItemFolder) (st : ScanState) (e : String)
    (h : (scan_folder_contents folder).parse_error = some e) :
    scan_step cfg gft folder st =
      { st with
        error_paths := st.error_paths ++ [(folder.path, "Error reading metadata: " ++ e)],
        scanned_folders_count := st.scanned_folders_count + 1 }
    ∧ (∀ rest st0, scan_folders cfg gft (.dir folder :: rest) st0
        = scan_folders cfg gft rest (scan_step cfg gft folder st0)) := by
  constructor
  · simp [scan_step, handle_eagle_folder, h]
  · intro rest st0; rfl

/-- Witness for C6 at a folder whose palette entry lacks a ratio. -/
theorem c6_parse_failure_errored_witness :
    (scan_folder_contents folderPalW).parse_error = some "palette entry missing ratio"
    ∧ scan_step cfgW gftW folderPalW initState =
        { initState with
          error_paths := initState.error_paths ++
            [(folderPalW.path, "Error reading metadata: " ++ "palette entry missing ratio")],
          scanned_folders_count := initState.scanned_folders_count + 1 } :=
  ⟨rfl,
   (c6_parse_failure_errored cfgW gftW folderPalW initState "palette entry missing ratio" rfl).1⟩

/-- C6 (counterexample): for the folder whose palette entry lacks its ratio
the recorded reason is the exception text `Error reading metadata: ...`, not
the claimed literal `metadata parse failure` (the folder is still errored
and in no other list). -/
theorem c6_counterexample :
    (scan_step cfgW gftW folderPalW initState).error_paths =
        [("pal-folder", "Error reading metadata: palette entry missing ratio")]
    ∧ (scan_step cfgW gftW folderPalW initState).items = []
    ∧ (scan_step cfgW gftW folderPalW initState).items_skipped = []
    ∧ "Error reading metadata: palette entry missing ratio" ≠ "metadata parse failure" := by
  refine ⟨rfl, rfl, rfl, by decide⟩

/-- C7: a folder that scans without a metadata parse error but lacks the
metadata descriptor, the resolved media file, or both, goes to the errored
list only — accepted and skipped are untouched — with the reason joining
exactly the missing parts out of `Missing metadata.json` and
`Missing media file`. -/
theorem c7_missing_parts (cfg : ReaderConfig) (gft : String → Option FileType)
    (folder : ItemFolder) (st : ScanState)
    (hperr : (scan_folder_contents folder).parse_error = none)
    (hmiss : (scan_folder_contents folder).metadata_obj = none
      ∨ (scan_folder_contents folder).media_file = none) :
    scan_step cfg gft folder st =
      { st with
        error_paths := st.error_paths ++ [(folder.path, String.intercalate ", "
          ((if (scan_folder_contents folder).metadata_obj = none
              then ["Missing metadata.json"] else [])
            ++ (if (scan_folder_contents folder).media_file = none
              then ["Missing media file"] else [])))],
        scanned_folders_count := st.scanned_folders_count + 1 } := by
  rcases hfs : scan_folder_contents folder with ⟨mo, mfile, pe⟩
  rw [hfs] at hperr hmiss
  simp only at hperr
  subst hperr
  rcases mo with _ | m <;> rcases mfile with _ | mf <;>
    simp_all [scan_step, handle_eagle_folder, hfs]

/-- Witness for C7 at the folder with no files: both parts missing, reasons
joined. -/
theorem c7_missing_parts_witness :
    (scan_folder_contents folderEmptyW).parse_error = none
    ∧ ((scan_folder_contents folderEmptyW).metadata_obj = none
        ∨ (scan_folder_contents folderEmptyW).media_file = none)
    ∧ scan_step cfgW gftW folderEmptyW initState =
        { initState with
          error_paths := initState.error_paths ++ [(folderEmptyW.path, String.intercalate ", "
            ((if (scan_folder_contents folderEmptyW).metadata_obj = none
                then ["Missing metadata.json"] else [])
              ++ (if (scan_folder_contents folderEmptyW).media_file = none
                then ["Missing media file"] else [])))],
          scanned_folders_count := initState.scanned_folders_count + 1 } :=
  ⟨rfl, Or.inl rfl, c7_missing_parts cfgW gftW folderEmptyW initState rfl (Or.inl rfl)⟩

/-- C8: the filter stage of the per-folder pipeline — a deleted item with
`include_deleted` off is skipped with reason `Item is deleted`; every newly
accepted item is not deleted or scanned with `include_deleted`; and an item
that passes the deleted and type checks under an active (non-empty) tag
filter is accepted exactly when some filter tag occurs among its tags,
otherwise skipped with reason `Tag mismatch`. -/
theorem c8_filter_stage (cfg : ReaderConfig) (gft : String → Option FileType)
    (folder : ItemFolder) (st : ScanState) (m : Metadata) (mf : MPath)
    (hscan : scan_folder_contents folder = ⟨some m, some mf, none⟩) :
    (m.isDeleted = true → cfg.include_deleted = false →
      scan_step cfg gft folder st =
        { st with
          items_skipped := st.items_skipped ++ [(⟨mf, m⟩, "Item is deleted")],
          scanned_folders_count := st.scanned_folders_count + 1 })
    ∧ (∀ it ∈ (scan_step cfg gft folder st).items, it ∉ st.items →
        (it.metadata.isDeleted = false ∨ cfg.include_deleted = true))
    ∧ (∀ ts dt, cfg.filter_tags = some ts → ts ≠ [] →
        (m.isDeleted = false ∨ cfg.include_deleted = true) →
        gft (mpathStr mf) = some dt → dt ∈ cfg.file_types →
        (((∃ tag ∈ ts, tag ∈ m.tags) →
            scan_step cfg gft folder st =
              { st with
                items := st.items ++ [⟨mf, m⟩],
                scanned_folders_count := st.scanned_folders_count + 1 })
          ∧ ((¬ ∃ tag ∈ ts, tag ∈ m.tags) →
            scan_step cfg gft folder st =
              { st with
                items_skipped := st.items_skipped ++ [(⟨mf, m⟩, "Tag mismatch")],
                scanned_folders_count := st.scanned_folders_count + 1 }))) := by
  refine ⟨?_, ?_, ?_⟩
  · intro hdel hinc
    simp [scan_step, handle_eagle_folder, hscan, hdel, hinc]
  · intro it hmem hnot
    by_cases hdel : (m.isDeleted && !cfg.include_deleted) = true
    · simp [scan_step, handle_eagle_folder, hscan, hdel] at hmem
      exact absurd hmem hnot
    · have hpass : m.isDeleted = false ∨ cfg.include_deleted = true := by
        rcases Bool.and_eq_false_iff.mp (Bool.not_eq_true _ ▸ hdel) with h | h
        · exact Or.inl h
        · exact Or.inr (by simpa using h)
      cases hg : gft (mpathStr mf) with
      | none =>
        simp [scan_step, handle_eagle_folder, hscan, hdel, hg] at hmem
        exact absurd hmem hnot
      | some dt =>
        by_cases hft : dt ∈ cfg.file_types
        · by_cases htm : tagMismatch cfg.filter_tags m = true
          · simp [scan_step, handle_eagle_folder, hscan, hdel, hg, hft, htm] at hmem
            exact absurd hmem hnot
          · simp [scan_step, handle_eagle_folder, hscan, hdel, hg, hft, htm] at hmem
            rcases hmem with hmem | hmem
            · exact absurd hmem hnot
            · subst hmem; exact hpass
        · simp [scan_step, handle_eagle_folder, hscan, hdel, hg, hft] at hmem
          exact absurd hmem hnot
  · intro ts dt hts hne hpass hg hft
    have hdel : (m.isDeleted && !cfg.include_deleted) = false := by
      rcases hpass with h | h <;> simp [h]
    have hempty : ts.isEmpty = false := by
      cases ts with
      | nil => exact absurd rfl hne
      | cons a l => rfl
    constructor
    · intro hex
      have htm : tagMismatch cfg.filter_tags m = false := by
        obtain ⟨tag, htag, htag2⟩ := hex
        simp [tagMismatch, hts, hempty, List.any_eq_true]
        exact ⟨tag, htag, htag2⟩
      simp [scan_step, handle_eagle_folder, hscan, hdel, hg, hft, htm]
    · intro hnex
      have htm : tagMismatch cfg.filter_tags m = true := by
        simp [tagMismatch, hts, hempty, List.any_eq_true]
        intro tag htag htag2
        exact absurd ⟨tag, htag, htag2⟩ hnex
      simp [scan_step, handle_eagle_folder, hscan, hdel, hg, hft, htm]

/-- Witness for C8: a deleted item is skipped under the default
configuration; under the tag filter `["a", "b"]` an item tagged `["b", "z"]`
is accepted and an item tagged `["c"]` is skipped with `Tag mismatch`. -/
theorem c8_filter_stage_witness :
    scan_step cfgW gftW folderDelW initState =
      { initState with
        items_skipped := initState.items_skipped ++
          [(⟨⟨"del-folder", "a.jpg"⟩, mDelW⟩, "Item is deleted")],
        scanned_folders_count := initState.scanned_folders_count + 1 }
    ∧ scan_step cfgTagW gftW folderTagBzW initState =
      { initState with
        items := initState.items ++ [⟨⟨"tag-folder", "a.jpg"⟩, mTagBzW⟩],
        scanned_folders_count := initState.scanned_folders_count + 1 }
    ∧ scan_step cfgTagW gftW folderTagCW initState =
      { initState with
        items_skipped := initState.items_skipped ++
          [(⟨⟨"tagc-folder", "a.jpg"⟩, mTagCW⟩, "Tag mismatch")],
        scanned_folders_count := initState.scanned_folders_count + 1 } := by
  refine ⟨?_, ?_, ?_⟩
  · exact (c8_filter_stage cfgW gftW folderDelW initState mDelW
      ⟨"del-folder", "a.jpg"⟩ rfl).1 rfl rfl
  · exact ((c8_filter_stage cfgTagW gftW folderTagBzW initState mTagBzW
      ⟨"tag-folder", "a.jpg"⟩ rfl).2.2 ["a", "b"] .image rfl (by decide)
      (Or.inl rfl) rfl (by decide)).1 ⟨"b", by decide, by decide⟩
  · exact ((c8_filter_stage cfgTagW gftW folderTagCW initState mTagCW
      ⟨"tagc-folder", "a.jpg"⟩ rfl).2.2 ["a", "b"] .image rfl (by decide)
      (Or.inl rfl) rfl (by decide)).2 (by decide)

/-- One scan step is identical under an empty tag filter and under no tag
filter: Python truthiness makes `if self.filter_tags:` skip the tag check in
both cases. -/
lemma scan_step_empty_filter (i : Bool) (fts : List FileType)
    (gft : String → Option FileType) (folder : ItemFolder) (st : ScanState) :
    scan_step ⟨i, fts, some []⟩ gft folder st = scan_step ⟨i, fts, none⟩ gft folder st := by
  simp only [scan_step, handle_eagle_folder]
  rcases scan_folder_contents folder with ⟨mo, mfile, pe⟩
  rcases pe with _ | e
  · rcases mo with _ | m <;> rcases mfile with _ | mf <;> rfl
  · rfl

/-- A string extending a strict prefix longer than `Tag mismatch` cannot be
`Tag mismatch`. -/
lemma append_ne_tag_mismatch (a s : String) (ha : 12 < a.length) :
    a ++ s ≠ "Tag mismatch" := by
  intro h
  have hlen := congrArg String.length h
  rw [String.length_append] at hlen
  have h12 : ("Tag mismatch" : String).length = 12 := rfl
  omega

/-- Under an empty tag filter no scan step ever records the skip reason
`Tag mismatch`. -/
lemma scan_step_no_tag_mismatch (i : Bool) (fts : List FileType)
    (gft : String → Option FileType) (folder : ItemFolder) (st : ScanState)
    (h : ∀ pr ∈ st.items_skipped, pr.2 ≠ "Tag mismatch") :
    ∀ pr ∈ (scan_step ⟨i, fts, some []⟩ gft folder st).items_skipped,
      pr.2 ≠ "Tag mismatch" := by
  intro pr hmem
  simp only [scan_step, handle_eagle_folder] at hmem
  rcases hfs : scan_folder_contents folder with ⟨mo, mfile, pe⟩
  rw [hfs] at hmem
  rcases pe with _ | e
  · rcases mo with _ | m <;> rcases mfile with _ | mf
    · exact h pr (by simpa using hmem)
    · exact h pr (by simpa using hmem)
    · exact h pr (by simpa using hmem)
    · simp only at hmem
      by_cases hdel : (m.isDeleted && !i) = true
      · simp [hdel] at hmem
        rcases hmem with hmem | hmem
        · exact h pr hmem
        · subst hmem; simp
      · cases hg : gft (mpathStr mf) with
        | none =>
          simp [hdel, hg] at hmem
          rcases hmem with hmem | hmem
          · exact h pr hmem
          · subst hmem
            exact append_ne_tag_mismatch "Unsupported file type: " _ (by decide)
        | some dt =>
          by_cases hft : dt ∈ fts
          · simp [hdel, hg, hft, tagMismatch] at hmem
            exact h pr hmem
          · simp [hdel, hg, hft] at hmem
            rcases hmem with hmem | hmem
            · exact h pr hmem
            · subst hmem
              exact append_ne_tag_mismatch "File type not requested: " _ (by decide)
  · simp at hmem
    exact h pr hmem

/-- Scanning a folder list is identical under an empty tag filter and under
no tag filter. -/
lemma scan_folders_empty_filter (i : Bool) (fts : List FileType)
    (gft : String → Option FileType) :
    ∀ (entries : List ImagesEntry) (st : ScanState),
      scan_folders ⟨i, fts, some []⟩ gft entries st
        = scan_folders ⟨i, fts, none⟩ gft entries st := by
  intro entries
  induction entries with
  | nil => intro st; rfl
  | cons e rest ih =>
    intro st
    cases e with
    | dir folder =>
      simp only [scan_folders, scan_step_empty_filter]
      exact ih _
    | nonDir n => exact ih st

/-- Under an empty tag filter no skipped entry of a whole scan carries the
reason `Tag mismatch`. -/
lemma scan_folders_no_tag_mismatch (i : Bool) (fts : List FileType)
    (gft : String → Option FileType) :
    ∀ (entries : List ImagesEntry) (st : ScanState),
      (∀ pr ∈ st.items_skipped, pr.2 ≠ "Tag mismatch") →
      ∀ pr ∈ (scan_folders ⟨i, fts, some []⟩ gft entries st).items_skipped,
        pr.2 ≠ "Tag mismatch" := by
  intro entries
  induction entries with
  | nil => intro st h; exact h
  | cons e rest ih =>
    intro st h
    cases e with
    | dir folder =>
      exact ih _ (scan_step_no_tag_mismatch i fts gft folder st h)
    | nonDir n => exact ih st h

/-- C10: supplying an empty tag-filter list disables tag filtering entirely
— the scan is the very same as with no filter at all, and no item of the
scan is ever skipped with reason `Tag mismatch`. -/
theorem c10_empty_tag_filter (i : Bool) (fts : List FileType)
    (gft : String → Option FileType) (entries : List ImagesEntry) (st : ScanState) :
    scan_folders ⟨i, fts, some []⟩ gft entries st
        = scan_folders ⟨i, fts, none⟩ gft entries st
    ∧ ((scan_folders ⟨i, fts, some []⟩ gft entries initState).items_skipped.all
        fun pr => pr.2 != "Tag mismatch") = true := by
  constructor
  · exact scan_folders_empty_filter i fts gft entries st
  · rw [List.all_eq_true]
    intro pr hmem
    have := scan_folders_no_tag_mismatch i fts gft entries initState
      (by intro pr h; simp [initState] at h) pr hmem
    simpa [bne_iff_ne] using this

/-- A pair found by `findPair` comes from its search list. -/
lemma findPair_mem (cands : List MPath) :
    ∀ (l : List MPath) (t : MPath), findPair cands l = some t → t ∈ l := by
  intro l
  induction l with
  | nil => intro t h; simp [findPair] at h
  | cons a l ih =>
    intro t h
    by_cases hm : (⟨a.parent, a.name ++ ".png"⟩ : MPath) ∈ cands
    · simp [findPair, hm] at h
      subst h; exact List.mem_cons_self a l
    · simp [findPair, hm] at h
      exact List.mem_cons_of_mem _ (ih t h)

/-- A file returned by the priority loop is one of the candidates. -/
lemma priorityLoop_mem (cands : List MPath) :
    ∀ (exts : List String) (t : MPath), priorityLoop cands exts = some t → t ∈ cands := by
  intro exts
  induction exts with
  | nil => intro t h; simp [priorityLoop] at h
  | cons ext rest ih =>
    intro t h
    simp only [priorityLoop] at h
    revert h
    cases hf : findPair cands
        (List.filter (fun f => decide (strLower (pySuffix f.name) = ext)) cands) with
    | some u =>
      intro h
      simp only at h
      have hu : u = t := by simpa using h
      subst hu
      exact List.mem_of_mem_filter (findPair_mem cands _ u hf)
    | none => intro h; exact ih t h

/-- The resolved main file is one of the candidates. -/
lemma determine_mem (cands : List MPath) (t : MPath)
    (h : determine_main_file cands = some t) : t ∈ cands := by
  unfold determine_main_file at h
  by_cases he : cands.isEmpty
  · simp [he] at h
  · rw [if_neg he] at h
    revert h
    cases hp : priorityLoop cands [".heic", ".dng"] with
    | some u =>
      intro h
      simp only at h
      have hu : u = t := by simpa using h
      subst hu
      exact priorityLoop_mem cands _ u hp
    | none =>
      intro h
      cases cands with
      | nil => simp at h
      | cons a l =>
        simp only [List.head?] at h
        have : a = t := by simpa using h
        subst this; exact List.mem_cons_self a l

/-- Every media candidate recorded by the scan loop stays inside the scanned
folder, so the parent of the resolved main file is the path of the folder. -/
lemma scanLoop_media_parent (fpath : String) :
    ∀ (files : List FsFile) (mo : Option Metadata) (cands : List MPath),
      (∀ c ∈ cands, c.parent = fpath) →
      ∀ mf, (scanLoop fpath mo cands files).media_file = some mf → mf.parent = fpath := by
  intro files
  induction files with
  | nil =>
    intro mo cands hc mf h
    simp only [scanLoop] at h
    exact hc mf (determine_mem cands mf h)
  | cons f rest ih =>
    intro mo cands hc mf h
    simp only [scanLoop] at h
    by_cases h1 : strContains f.name "_thumbnail" = true
    · rw [if_pos h1] at h; exact ih mo cands hc mf h
    · rw [if_neg h1] at h
      by_cases h2 : f.name = "metadata.json"
      · rw [if_pos h2] at h
        cases hl : load_metadata f.content with
        | error e => rw [hl] at h; simp at h
        | ok m => rw [hl] at h; exact ih (some m) cands hc mf h
      · rw [if_neg h2] at h
        refine ih mo (cands ++ [⟨fpath, f.name⟩]) ?_ mf h
        intro c hcmem
        rcases List.mem_append.mp hcmem with hcm | hcm
        · exact hc c hcm
        · simp at hcm; subst hcm; rfl

/-- The main file of a folder scan lives in that folder. -/
lemma scan_contents_media_parent (folder : ItemFolder) (mf : MPath)
    (h : (scan_folder_contents folder).media_file = some mf) : mf.parent = folder.path :=
  scanLoop_media_parent folder.path folder.files none [] (by simp) mf h

/-- Appending one errored entry adds exactly its folder key. -/
lemma keys_append_error (st : ScanState) (p r : String) :
    (↑(stateKeysList { st with error_paths := st.error_paths ++ [(p, r)] }) : Multiset String)
      = ↑(stateKeysList st) + {p} := by
  simp only [stateKeysList, List.map_append, List.map_cons, List.map_nil,
    ← Multiset.coe_add, Multiset.coe_singleton]
  abel

/-- Appending one skipped entry adds exactly the folder key of its item. -/
lemma keys_append_skip (st : ScanState) (it : EagleItem) (r : String) :
    (↑(stateKeysList { st with items_skipped := st.items_skipped ++ [(it, r)] }) : Multiset String)
      = ↑(stateKeysList st) + {it.file_path.parent} := by
  simp only [stateKeysList, List.map_append, List.map_cons, List.map_nil,
    ← Multiset.coe_add, Multiset.coe_singleton]
  abel

/-- Appending one accepted item adds exactly its folder key. -/
lemma keys_append_item (st : ScanState) (it : EagleItem) :
    (↑(stateKeysList { st with items := st.items ++ [it] }) : Multiset String)
      = ↑(stateKeysList st) + {it.file_path.parent} := by
  simp only [stateKeysList, List.map_append, List.map_cons, List.map_nil,
    ← Multiset.coe_add, Multiset.coe_singleton]
  abel

/-- Each visited folder takes exactly one of the three exits: it errors, it
is skipped, or it is accepted, and the recorded entry is keyed by this
path of the folder. -/
lemma scan_step_shape (cfg : ReaderConfig) (gft : String → Option FileType)
    (folder : ItemFolder) (st : ScanState) :
    (∃ r, scan_step cfg gft folder st =
        { st with error_paths := st.error_paths ++ [(folder.path, r)],
                  scanned_folders_count := st.scanned_folders_count + 1 })
    ∨ (∃ it r, it.file_path.parent = folder.path ∧ scan_step cfg gft folder st =
        { st with items_skipped := st.items_skipped ++ [(it, r)],
                  scanned_folders_count := st.scanned_folders_count + 1 })
    ∨ (∃ it, it.file_path.parent = folder.path ∧ scan_step cfg gft folder st =
        { st with items := st.items ++ [it],
                  scanned_folders_count := st.scanned_folders_count + 1 }) := by
  rcases hfs : scan_folder_contents folder with ⟨mo, mfile, pe⟩
  rcases pe with _ | e
  · rcases mo with _ | m <;> rcases mfile with _ | mf
    · exact Or.inl ⟨String.intercalate ", " ["Missing metadata.json", "Missing media file"],
        by simp [scan_step, handle_eagle_folder, hfs]⟩
    · exact Or.inl ⟨String.intercalate ", " ["Missing metadata.json"],
        by simp [scan_step, handle_eagle_folder, hfs]⟩
    · exact Or.inl ⟨String.intercalate ", " ["Missing media file"],
        by simp [scan_step, handle_eagle_folder, hfs]⟩
    · have hp : mf.parent = folder.path :=
        scan_contents_media_parent folder mf (by rw [hfs])
      by_cases hdel : (m.isDeleted && !cfg.include_deleted) = true
      · exact Or.inr (Or.inl ⟨⟨mf, m⟩, "Item is deleted", hp,
          by simp [scan_step, handle_eagle_folder, hfs, hdel]⟩)
      · cases hg : gft (mpathStr mf) with
        | none =>
          exact Or.inr (Or.inl ⟨⟨mf, m⟩, "Unsupported file type: " ++ pySuffix mf.name, hp,
            by simp [scan_step, handle_eagle_folder, hfs, hdel, hg]⟩)
        | some dt =>
          by_cases hft : dt ∈ cfg.file_types
          · by_cases htm : tagMismatch cfg.filter_tags m = true
            · exact Or.inr (Or.inl ⟨⟨mf, m⟩, "Tag mismatch", hp,
                by simp [scan_step, handle_eagle_folder, hfs, hdel, hg, hft, htm]⟩)
            · exact Or.inr (Or.inr ⟨⟨mf, m⟩, hp,
                by simp [scan_step, handle_eagle_folder, hfs, hdel, hg, hft, htm]⟩)
          · exact Or.inr (Or.inl ⟨⟨mf, m⟩, "File type not requested: " ++ FileType.nameStr dt, hp,
              by simp [scan_step, handle_eagle_folder, hfs, hdel, hg, hft]⟩)
  · exact Or.inl ⟨"Error reading metadata: " ++ e,
      by simp [scan_step, handle_eagle_folder, hfs]⟩

/-- One visited folder adds exactly one key — its own path — across the
three result lists, and bumps the counter by one. -/
lemma scan_step_keys (cfg : ReaderConfig) (gft : String → Option FileType)
    (folder : ItemFolder) (st : ScanState) :
    (↑(stateKeysList (scan_step cfg gft folder st)) : Multiset String)
        = ↑(stateKeysList st) + {folder.path}
    ∧ (scan_step cfg gft folder st).scanned_folders_count = st.scanned_folders_count + 1 := by
  rcases scan_step_shape cfg gft folder st with ⟨r, heq⟩ | ⟨it, r, hp, heq⟩ | ⟨it, hp, heq⟩
  · rw [heq]
    exact ⟨keys_append_error st folder.path r, rfl⟩
  · rw [heq, ← hp]
    exact ⟨keys_append_skip st it r, rfl⟩
  · rw [heq, ← hp]
    exact ⟨keys_append_item st it, rfl⟩

/-- Over a whole scan the keys of the three result lists are exactly the
visited folder paths, and the counter advances by their number. -/
lemma scan_folders_keys (cfg : ReaderConfig) (gft : String → Option FileType) :
    ∀ (entries : List ImagesEntry) (st : ScanState),
      (↑(stateKeysList (scan_folders cfg gft entries st)) : Multiset String)
          = ↑(stateKeysList st) + ↑(dirPaths entries)
      ∧ (scan_folders cfg gft entries st).scanned_folders_count
          = st.scanned_folders_count + (dirPaths entries).length := by
  intro entries
  induction entries with
  | nil =>
    intro st
    constructor
    · simp [scan_folders, dirPaths]
    · simp [scan_folders, dirPaths]
  | cons e rest ih =>
    intro st
    cases e with
    | dir folder =>
      obtain ⟨hk0, hc0⟩ := scan_step_keys cfg gft folder st
      obtain ⟨hk, hc⟩ := ih (scan_step cfg gft folder st)
      constructor
      · simp only [scan_folders]
        rw [hk, hk0]
        have hd : dirPaths (.dir folder :: rest) = folder.path :: dirPaths rest := rfl
        rw [hd, ← Multiset.cons_coe, ← Multiset.singleton_add]
        abel
      · simp only [scan_folders]
        rw [hc, hc0]
        have hd : dirPaths (.dir folder :: rest) = folder.path :: dirPaths rest := rfl
        rw [hd]
        simp
        omega
    | nonDir n =>
      obtain ⟨hk, hc⟩ := ih st
      constructor
      · simp only [scan_folders]
        rw [hk]
        rfl
      · simp only [scan_folders]
        rw [hc]
        rfl

/-- C1: after a scan from the fresh reader state, the visited-folder counter
equals the total size of the three result lists, and — when the visited
folder paths are distinct, as directory entries are — the folder keys across
accepted, skipped and errored are pairwise distinct: each visited folder
contributed to exactly one list, once. -/
theorem c1_scan_partition (cfg : ReaderConfig) (gft : String → Option FileType)
    (entries : List ImagesEntry) (h : (dirPaths entries).Nodup) :
    (scan_folders cfg gft entries initState).scanned_folders_count
        = (scan_folders cfg gft entries initState).items.length
          + (scan_folders cfg gft entries initState).items_skipped.length
          + (scan_folders cfg gft entries initState).error_paths.length
    ∧ (stateKeysList (scan_folders cfg gft entries initState)).Nodup := by
  obtain ⟨hk, hc⟩ := scan_folders_keys cfg gft entries initState
  have hinit : (↑(stateKeysList initState) : Multiset String) = 0 := rfl
  rw [hinit, zero_add] at hk
  constructor
  · have h1 : (stateKeysList (scan_folders cfg gft entries initState)).length
        = (dirPaths entries).length := by
      rw [← Multiset.coe_card, hk, Multiset.coe_card]
    have h2 : (stateKeysList (scan_folders cfg gft entries initState)).length
        = (scan_folders cfg gft entries initState).items.length
          + (scan_folders cfg gft entries initState).items_skipped.length
          + (scan_folders cfg gft entries initState).error_paths.length := by
      simp [stateKeysList]
      omega
    have h3 : initState.scanned_folders_count = 0 := rfl
    omega
  · have hnd := Multiset.coe_nodup.mpr h
    rw [← hk] at hnd
    exact Multiset.coe_nodup.mp hnd

/-- Witness for C1 on a catalogue with one accepted folder, one skipped
non-directory entry and one errored folder. -/
theorem c1_scan_partition_witness :
    (dirPaths entriesW).Nodup
    ∧ ((scan_folders cfgW gftW entriesW initState).scanned_folders_count
        = (scan_folders cfgW gftW entriesW initState).items.length
          + (scan_folders cfgW gftW entriesW initState).items_skipped.length
          + (scan_folders cfgW gftW entriesW initState).error_paths.length
      ∧ (stateKeysList (scan_folders cfgW gftW entriesW initState)).Nodup) :=
  ⟨by decide, c1_scan_partition cfgW gftW entriesW (by decide)⟩

end Eagleliz
